import Mathlib

/-!
Verification development for the outbound SMTP delivery worker
(`lib/sender.js`).  The worker's per-delivery pipeline, its error
classification, the bounce suppression rules, the SRS envelope rewrite,
the MX/IP dial loop with STARTTLS downgrade, and the bounce-webhook
retry loop are embedded shallowly as executable Lean functions.
External collaborators (the bounce classifier, the DKIM signer, the SRS
rewriter, the received-header template of the zone) are modelled as
function-valued parameters in an `Env` record, exactly as the source
treats them as opaque calls.  Strings stand in for byte buffers, so
`String.length` models byte length.
-/

/-! ## Basic string helpers (JS semantics) -/

/-- ASCII lowercasing, modelling JS `String.prototype.toLowerCase` on the
ASCII header names and domains that occur here. -/
def lowerStr (s : String) : String := ⟨s.data.map Char.toLower⟩

/-- Index of the last occurrence of `c`, modelling JS
`String.prototype.lastIndexOf` (`none` plays the role of `-1`). -/
def lastIdxAux (c : Char) : List Char → Option Nat
  | [] => none
  | a :: rest =>
    match lastIdxAux c rest with
    | some i => some (i + 1)
    | none => if a = c then some 0 else none

/-- The JS whitespace class `\s` restricted to the ASCII characters that can
occur in SMTP replies. -/
def isJsWs (c : Char) : Bool :=
  c = ' ' || c = '\t' || c = '\n' || c = '\r' || c = '\x0b' || c = '\x0c'

/-- Length of the longest prefix satisfying `p`. -/
def countWhile (p : Char → Bool) : List Char → Nat
  | [] => 0
  | c :: rest => if p c then countWhile p rest + 1 else 0

/-- Length matched by the reply-code regex `\d{3}[\s\-]+([\d\.]+\s*)?` at the
head of the list, `none` when it does not match.  The regex is deterministic
(no backtracking helps), so greedy scanning is exact. -/
def matchReplyCode : List Char → Option Nat
  | d1 :: d2 :: d3 :: rest =>
    if d1.isDigit && d2.isDigit && d3.isDigit then
      let n1 := countWhile (fun c => isJsWs c || c = '-') rest
      if n1 = 0 then none
      else
        let rest2 := rest.drop n1
        let n2 := countWhile (fun c => c.isDigit || c = '.') rest2
        if n2 = 0 then some (3 + n1)
        else some (3 + n1 + n2 + countWhile isJsWs (rest2.drop n2))
    else none
  | _ => none

/-- The per-line (`m`-flag) replacement of reply codes by a single space, as in
`formatSMTPResponse`.  A position is a line start when it is position 0 or
follows a line terminator.  Fuel is the length of the list (every step
consumes at least one character). -/
def replaceCodesAux : Nat → Bool → List Char → List Char
  | 0, _, l => l
  | _ + 1, _, [] => []
  | fuel + 1, lineStart, c :: rest =>
    if lineStart then
      match matchReplyCode (c :: rest) with
      | some n =>
        let consumed := (c :: rest).take n
        ' ' :: replaceCodesAux fuel
          (consumed.getLast? == some '\n' || consumed.getLast? == some '\r')
          ((c :: rest).drop n)
      | none => c :: replaceCodesAux fuel (c == '\n' || c == '\r') rest
    else c :: replaceCodesAux fuel (c == '\n' || c == '\r') rest

/-- Collapse runs of JS whitespace into single spaces (`\s+` → `' '`). -/
def collapseWsAux : Bool → List Char → List Char
  | _, [] => []
  | prev, c :: rest =>
    if isJsWs c then
      if prev then collapseWsAux true rest else ' ' :: collapseWsAux true rest
    else c :: collapseWsAux false rest

/-- `Sender.formatSMTPResponse`: keep a leading reply code (with optional
enhanced status code) as a prefix, blank out reply codes at later line starts,
collapse whitespace runs and trim. -/
def formatSMTPResponse (s : String) : String :=
  let l := s.data
  let head := match matchReplyCode l with | some n => l.take n | none => []
  let tail := match matchReplyCode l with | some n => l.drop n | none => l
  let replaced := replaceCodesAux tail.length true tail
  let collapsed := collapseWsAux false (head ++ replaced)
  ⟨((collapsed.dropWhile (fun c => c = ' ')).reverse.dropWhile
      (fun c => c = ' ')).reverse⟩

/-! ## Header block (ordered multiset with index-addressed insertion)

The `mailsplit` `Headers` class used by the source: keys are stored
normalised (lowercased), `addFormatted`/`add` insert at a given index where
`0` is the top, `Infinity` the bottom, and the default is the top. -/

structure HeaderEntry where
  key : String
  line : String
  deriving DecidableEq, Repr

structure Headers where
  entries : List HeaderEntry
  deriving DecidableEq, Repr

/-- Insertion position: `pos n` (clamped to the length) or `bottom`
(the JS `Infinity` argument). -/
inductive HeaderIndex
  | pos (n : Nat)
  | bottom
  deriving DecidableEq, Repr

def Headers.addFormatted (h : Headers) (key line : String) (idx : HeaderIndex) :
    Headers :=
  let e : HeaderEntry := ⟨lowerStr key, line⟩
  match idx with
  | .bottom => ⟨h.entries ++ [e]⟩
  | .pos n => ⟨h.entries.take n ++ e :: h.entries.drop n⟩

def Headers.add (h : Headers) (key value : String) (idx : HeaderIndex) : Headers :=
  h.addFormatted key (key ++ ": " ++ value) idx

/-- `headers.get(key)`: the lines of all entries whose normalised key matches. -/
def Headers.get (h : Headers) (key : String) : List String :=
  (h.entries.filter (fun e => e.key == lowerStr key)).map (fun e => e.line)

/-- `headers.build()`: serialise the block to the wire. -/
def Headers.build (h : Headers) : String :=
  String.join (h.entries.map (fun e => e.line ++ "\r\n")) ++ "\r\n"

/-! ## Data model -/

structure SpamDefault where
  is_spam : Bool
  score : Option String
  required_score : Option String
  deriving DecidableEq, Repr

structure SpamInfo where
  default : Option SpamDefault
  tests : List String
  deriving DecidableEq, Repr

structure DkimInfo where
  hashAlgo : String
  bodyHash : String
  keys : List String
  deriving DecidableEq, Repr

/-- One recipient's copy of a message, as delivered by `GET`.  `lock` is the
`_lock` token, `deferred` the `_deferred.count` field (absent on first try). -/
structure Delivery where
  id : String
  seq : String
  lock : String
  mailFrom : String
  rcptTo : List String
  domain : String
  headers : Headers
  bodySize : Nat
  deferred : Option Nat
  spam : Option SpamInfo
  dkim : Option DkimInfo
  fbl : Option String
  messageId : String
  deriving DecidableEq, Repr

/-- `delivery._deferred && delivery._deferred.count || 0`. -/
def deferredCountOf (d : Delivery) : Nat := d.deferred.getD 0

/-- Result of `bounces.check`: the external bounce classifier. -/
structure BounceInfo where
  action : String
  category : String
  message : String
  deriving DecidableEq, Repr

/-- An error surfaced by the dialer or by `Session.send`: `response` is the
SMTP reply when the server answered, `message` the OS error text. -/
structure ErrInfo where
  response : Option String
  message : String
  deriving DecidableEq, Repr

/-- The configuration keys `sender.js` reads. -/
structure Config where
  dkimEnabled : Bool
  srsEnabled : Bool
  srsRewriteDomain : String
  srsExcludeDomains : List String
  bouncesUrl : Option String
  bouncesEnabled : Bool
  deriving DecidableEq, Repr

/-- External collaborators called by the worker, kept opaque exactly as the
source treats them: the system hostname, the zone's received-header template,
`dkimSign.sign` (empty string models a falsy result), `bounces.check`, and
`srsRewriter.rewrite`. -/
structure Env where
  osHostname : String
  genReceived : Delivery → String → String
  dkimSign : Headers → String → String → String → String
  check : Option String → BounceInfo
  srsRewrite : String → String → String

/-- The queue commands a worker can issue for a held delivery.  `release` and
`defer` carry the `_lock` token; `bounce` does not (the source sends no lock
with `BOUNCE`). -/
inductive QueueCmd
  | release (id seq lock : String)
  | defer (id seq lock : String) (ttl : Nat)
  | bounce (id mailFrom : String) (rcptTo : List String) (seq : String)
      (headers : List HeaderEntry) (returnPath category response : String)
  deriving DecidableEq, Repr

def QueueCmd.isTerminalWithLock (lock : String) : QueueCmd → Bool
  | .release _ _ l => l == lock
  | .defer _ _ l _ => l == lock
  | .bounce .. => false

def QueueCmd.isReleaseOrDefer : QueueCmd → Bool
  | .release .. => true
  | .defer .. => true
  | .bounce .. => false

def QueueCmd.isDeferCmd : QueueCmd → Bool
  | .defer .. => true
  | _ => false

def QueueCmd.isBounceCmd : QueueCmd → Bool
  | .bounce .. => true
  | _ => false

/-! ## Per-delivery pipeline -/

/-- The spam status parts as assembled in `sendNext`. -/
def spamStatusParts (sd : SpamDefault) (tests : List String) : List String :=
  (match sd.score with | some s => ["score=" ++ s] | none => []) ++
  (match sd.required_score with | some s => ["required=" ++ s] | none => []) ++
  (if tests.isEmpty then []
   else ["tests=" ++ "[" ++ String.intercalate ", " tests ++ "]"])

/-- `sendNext`: when `delivery.spam.default` is present, append an
`X-Zone-Spam-Status` header at the bottom of the block. -/
def applySpam (d : Delivery) : Headers :=
  match d.spam with
  | none => d.headers
  | some sp =>
    match sp.default with
    | none => d.headers
    | some sd =>
      let parts := spamStatusParts sd sp.tests
      d.headers.add "X-Zone-Spam-Status"
        ((if sd.is_spam then "Yes" else "No") ++
         (if parts.isEmpty then "" else ", " ++ String.intercalate ", " parts))
        .bottom

/-- `Math.min(Math.pow(5, deferredCount + 1), 1024) * 60 * 1000`. -/
def deferTtl (dc : Nat) : Nat := min (5 ^ (dc + 1)) 1024 * 60 * 1000

/-- `Sender.releaseDelivery`: the `RELEASE` command it sends. -/
def releaseDelivery (d : Delivery) : QueueCmd := .release d.id d.seq d.lock

/-- `Sender.deferDelivery`: the `DEFER` command it sends. -/
def deferDelivery (d : Delivery) (ttl : Nat) : QueueCmd :=
  .defer d.id d.seq d.lock ttl

/-- `Sender.sendBounceMessage`: `none` when the bounce is suppressed (empty
return path, or more than 25 `Received` headers), otherwise the `BOUNCE`
command it sends. -/
def sendBounceMessage (d : Delivery) (b : BounceInfo) (smtpResponse : String) :
    Option QueueCmd :=
  if d.mailFrom = "" then none
  else if 25 < (d.headers.get "Received").length then none
  else some (.bounce d.id d.mailFrom d.rcptTo d.seq d.headers.entries d.mailFrom
    b.category smtpResponse)

/-- Outcome of `Sender.handleResponseError`: the queue commands issued (in
order) and whether the bounce webhook POST was scheduled. -/
structure ErrorOutcome where
  cmds : List QueueCmd
  webhookScheduled : Bool
  deriving DecidableEq, Repr

/-- `Sender.handleResponseError`.  The delivery's headers are the ones at call
time (the worker's `Received` header has already been prepended). -/
def handleResponseError (cfg : Config) (env : Env) (d : Delivery)
    (err : ErrInfo) : ErrorOutcome :=
  let dc := deferredCountOf d
  let smtpResponse := formatSMTPResponse (err.response.getD err.message)
  let b := env.check err.response
  if b.action ≠ "reject" ∨ 6 < dc then
    ⟨[deferDelivery d (deferTtl dc)], false⟩
  else
    ⟨releaseDelivery d ::
      (if cfg.bouncesEnabled then (sendBounceMessage d b smtpResponse).toList
       else []),
     cfg.bouncesUrl.isSome⟩

/-- One step of `Sender.signMessage`'s loop over the DKIM keys: sign the
current header block and prepend the `DKIM-Signature` header when the signer
returned one (the source checks the result for truthiness). -/
def dkimStep (env : Env) (dk : DkimInfo) (acc : Headers) (key : String) :
    Headers :=
  let dh := env.dkimSign acc dk.hashAlgo dk.bodyHash key
  if dh = "" then acc else acc.addFormatted "dkim-signature" dh (.pos 0)

/-- `Sender.signMessage`: for each key, in reverse order of the configured
list, prepend a `DKIM-Signature` header. -/
def signMessage (env : Env) (dkim : Option DkimInfo) (hs : Headers) : Headers :=
  match dkim with
  | none => hs
  | some dk => dk.keys.reverse.foldl (dkimStep env dk) hs

/-- The result of the connection phase, as seen by `sendNext`'s callback:
either the dial failed with an error, or a session was established under the
given local HELO name and `Session.send` then succeeded (`none`) or failed
(`some err`). -/
inductive ConnResult
  | failed (err : ErrInfo)
  | ok (heloName : String) (sendErr : Option ErrInfo)
  deriving Repr

def connHelo (env : Env) : ConnResult → String
  | .failed _ => env.osHostname
  | .ok name _ => name

def connErr : ConnResult → Option ErrInfo
  | .failed e => some e
  | .ok _ se => se

def connIsFailed : ConnResult → Bool
  | .failed _ => true
  | .ok _ _ => false

/-- The arguments of `connection.send`. -/
structure SendCall where
  mailFrom : String
  rcptTo : List String
  size : Nat
  deriving DecidableEq, Repr

/-- Everything observable about processing one delivery: the `send` call (if a
session was established), the worker's received header, the final header
block, the queue commands issued and whether the webhook was scheduled. -/
structure DeliveryOutcome where
  sendCall : Option SendCall
  received : String
  headersFinal : Headers
  cmds : List QueueCmd
  webhookScheduled : Bool
  deriving Repr

/-- The SRS envelope rewrite inside `sendNext`: when enabled and the envelope
sender is non-empty, leave it alone when its domain (text after the last `@`,
lowercased) is excluded, otherwise rewrite.  `afterAt` is JS
`lastIndexOf('@') + 1` (0 when there is no `@`, since `lastIndexOf` yields
`-1`): the domain is `substr(afterAt)` and the local part is
`substr(0, afterAt - 1)` — with no `@` this is `substr(0, -1)`, the empty
string, matching the truncated subtraction `0 - 1 = 0`. -/
def srsEnvelopeFrom (cfg : Config) (env : Env) (envFrom : String) : String :=
  if cfg.srsEnabled ∧ envFrom ≠ "" then
    let afterAt := ((lastIdxAux '@' envFrom.data).map (· + 1)).getD 0
    let senderDomain := lowerStr ⟨envFrom.data.drop afterAt⟩
    if senderDomain ∈ cfg.srsExcludeDomains then envFrom
    else env.srsRewrite ⟨envFrom.data.take (afterAt - 1)⟩ senderDomain ++ "@"
      ++ cfg.srsRewriteDomain
  else envFrom

/-- The per-job portion of `Sender.sendNext`, from a delivery returned by
`GET` and the result of the connection phase to the observable outcome:
spam annotation, prepending the `Received` header (HELO name of the
connection, or the system hostname when the dial failed), DKIM signing,
SIZE computation, SRS envelope rewrite, and the terminal queue commands. -/
def processDelivery (cfg : Config) (env : Env) (d : Delivery)
    (conn : ConnResult) : DeliveryOutcome :=
  let h1 := applySpam d
  let rh := env.genReceived { d with headers := h1 } (connHelo env conn)
  let h2 := h1.addFormatted "Received" rh (.pos 0)
  match conn with
  | .failed err =>
    let eo := handleResponseError cfg env { d with headers := h2 } err
    ⟨none, rh, h2, eo.cmds, eo.webhookScheduled⟩
  | .ok _ sendErr =>
    let h3 := if cfg.dkimEnabled then signMessage env d.dkim h2 else h2
    let size := rh.length + h3.build.length + d.bodySize
    let call : SendCall := ⟨srsEnvelopeFrom cfg env d.mailFrom, d.rcptTo, size⟩
    match sendErr with
    | some err =>
      let eo := handleResponseError cfg env { d with headers := h3 } err
      ⟨some call, rh, h3, eo.cmds, eo.webhookScheduled⟩
    | none => ⟨some call, rh, h3, [releaseDelivery d], false⟩

/-! ## The dial loop of `Sender.getConnection`

`tryConnectMX`/`tryConnectIP` walk the resolved exchanges and their IP lists.
Each connection attempt is modelled by an oracle `attempt mx ip starttls`
(indices into the exchange list and its IP list; `starttls` is whether the
session is dialled with STARTTLS enabled, i.e. `!zone.disableStarttls`).  An
`etls` result is the `err.code === 'ETLS'` event: the zone's
`disableStarttls` flag is set and the same IP is immediately redialled.  A
plaintext redial of an IP that keeps answering `etls` would loop forever in
the source, so the recursion is fuel-indexed; `outOfFuel` marks truncation. -/

inductive AttemptResult
  | connected
  | etls
  | failed
  deriving DecidableEq, Repr

structure DialEnv where
  ipLists : List (List Nat)
  attempt : Nat → Nat → Bool → AttemptResult

/-- One row of the dial trace: which exchange and IP index were dialled,
whether STARTTLS was enabled, whether this was the plaintext retry of the
same IP (`tryConnectIP(true)`), and the observed result. -/
structure DialAttempt where
  mx : Nat
  ip : Nat
  starttls : Bool
  isRetry : Bool
  result : AttemptResult
  deriving DecidableEq, Repr

inductive DialOutcome
  | connected (mx ip : Nat)
  | exhausted
  | outOfFuel
  deriving DecidableEq, Repr

/-- Dial result: the trace of attempts, the zone's `disableStarttls` flag
after the dial, and the outcome. -/
structure DialResult where
  trace : List DialAttempt
  flag : Bool
  outcome : DialOutcome
  deriving DecidableEq, Repr

def dialCons (a : DialAttempt) (r : DialResult) : DialResult :=
  ⟨a :: r.trace, r.flag, r.outcome⟩

/-- The control state: about to run `tryConnectMX` with the given `mxTry`, or
`tryConnectIP` inside exchange `mxTry` with `nIps` resolved addresses,
`nextIdx = ipTry + 1`, and the `retryConnection` argument. -/
inductive DialState
  | mx (mxTry : Nat)
  | ip (mxTry nIps nextIdx : Nat) (retry : Bool)
  deriving DecidableEq, Repr

/-- The dial loop.  `flag` is the zone's `disableStarttls` flag.  In the `ip`
state, `!retry && ipTry >= ipList.length - 1` becomes `¬retry ∧ nIps ≤
nextIdx`; a retry redials index `nextIdx - 1`, a fresh attempt dials
`nextIdx`.  A resolver error or empty address list is a `[]` entry in
`ipLists` (both make the source skip to the next exchange). -/
def dialRun (env : DialEnv) (flag : Bool) : Nat → DialState → DialResult
  | 0, _ => ⟨[], flag, .outOfFuel⟩
  | fuel + 1, .mx mxTry =>
    if mxTry < env.ipLists.length then
      dialRun env flag fuel (.ip mxTry (env.ipLists.getD mxTry []).length 0 false)
    else ⟨[], flag, .exhausted⟩
  | fuel + 1, .ip mxTry nIps nextIdx retry =>
    if ¬retry ∧ nIps ≤ nextIdx then dialRun env flag fuel (.mx (mxTry + 1))
    else
      let ipIdx := if retry then nextIdx - 1 else nextIdx
      let nextIdxQ := if retry then nextIdx else nextIdx + 1
      let res := env.attempt mxTry ipIdx (!flag)
      let a : DialAttempt := ⟨mxTry, ipIdx, !flag, retry, res⟩
      if res = .connected then ⟨[a], flag, .connected mxTry ipIdx⟩
      else if res = .etls then
        dialCons a (dialRun env true fuel (.ip mxTry nIps nextIdxQ true))
      else dialCons a (dialRun env flag fuel (.ip mxTry nIps nextIdxQ false))

/-- A whole dial of `getConnection`, starting at the first exchange with the
zone's current `disableStarttls` value. -/
def dial (env : DialEnv) (flag : Bool) (fuel : Nat) : DialResult :=
  dialRun env flag fuel (.mx 0)

/-- A STARTTLS session (`smtp-connection` with `requireTLS`/`opportunisticTLS`)
is the only way to get an `ETLS` error: plaintext dials never produce one. -/
def noPlainEtls (env : DialEnv) : Prop :=
  ∀ m i, env.attempt m i false ≠ AttemptResult.etls

/-- The `retry` bit carried by a dial state. -/
def DialState.retryBit : DialState → Nat
  | .ip _ _ _ true => 1
  | _ => 0

/-! ## The bounce-webhook retry loop of `handleResponseError`

`notifyBounce` retries itself on stream error while `retries++ <= 5`,
scheduling the next attempt `Math.pow(retries, 2) * 1000` ms out (with the
post-increment value).  `notifyBounceRetries r k` is the list of scheduled
retry delays when the next `k` attempts all fail and the `retries` counter
currently holds `r`. -/

def notifyBounceRetries : Nat → Nat → List Nat
  | _, 0 => []
  | r, k + 1 =>
    if r ≤ 5 then ((r + 1) ^ 2 * 1000) :: notifyBounceRetries (r + 1) k else []

/-- Delays of the webhook retries scheduled when the first `failures` POST
attempts all fail, starting from a fresh `retries = 0` counter. -/
def webhookRetrySchedule (failures : Nat) : List Nat :=
  notifyBounceRetries 0 failures

/-! ## Concrete inputs for witnesses and counterexamples -/

/-- An environment whose classifier rejects everything; DKIM signer returns a
falsy result. -/
def exEnvReject : Env :=
  ⟨"host.local", fun _ h => "Received: by " ++ h, fun _ _ _ _ => "",
   fun _ => ⟨"reject", "other", "Unknown"⟩, fun l _ => l⟩

/-- An environment that also signs: the DKIM signer returns a header. -/
def exEnvDkim : Env :=
  ⟨"host.local", fun _ h => "Received: by " ++ h,
   fun _ _ _ _ => "DKIM-Signature: v=1; s=sel",
   fun _ => ⟨"reject", "other", "Unknown"⟩, fun l d => "SRS0=" ++ l ++ "=" ++ d⟩

def exCfgPlain : Config := ⟨false, false, "rw.test", [], none, false⟩

def exCfgDkim : Config := ⟨true, false, "rw.test", [], none, false⟩

def exCfgBounces : Config :=
  ⟨false, false, "rw.test", [], some "http://bounce.test/", true⟩

def exCfgSrs : Config := ⟨false, true, "rw.test", ["ex.test"], none, false⟩

def exErr550 : ErrInfo :=
  ⟨some "550 5.1.1 no such user", "550 5.1.1 no such user"⟩

def exDeliveryDC7 : Delivery :=
  ⟨"m1", "1", "L1", "a@x.test", ["b@y.test"], "y.test", ⟨[]⟩, 10, some 7,
   none, none, none, "mid1"⟩

def exDeliveryPlain : Delivery :=
  ⟨"m2", "1", "L2", "a@x.test", ["b@y.test"], "y.test", ⟨[]⟩, 10, none,
   none, none, none, "mid2"⟩

def exDeliveryDkim : Delivery :=
  ⟨"m3", "1", "L3", "a@x.test", ["b@y.test"], "y.test", ⟨[]⟩, 10, none,
   none, some ⟨"sha256", "bh", ["k1"]⟩, none, "mid3"⟩

/-- A delivery that arrived already carrying 26 `Received` lines. -/
def exDelivery26 : Delivery :=
  ⟨"m4", "1", "L4", "a@x.test", ["b@y.test"], "y.test",
   ⟨List.replicate 26 ⟨"received", "Received: hop"⟩⟩, 10, none,
   none, none, none, "mid4"⟩

def exDeliveryNullFrom : Delivery :=
  ⟨"m5", "1", "L5", "", ["b@y.test"], "y.test", ⟨[]⟩, 10, none,
   none, none, none, "mid5"⟩

def exDeliverySrs : Delivery :=
  ⟨"m6", "1", "L6", "A@Ex.Test", ["b@y.test"], "y.test", ⟨[]⟩, 10, none,
   none, none, none, "mid6"⟩

/-- A dial environment with one exchange and one IP whose server fails
STARTTLS but accepts plaintext. -/
def exDialEnv : DialEnv :=
  ⟨[[5]], fun _ _ stls => if stls then .etls else .connected⟩

/-! ## Helper lemmas -/

theorem lower_received : lowerStr "Received" = "received" := by decide

theorem lower_dkim : lowerStr "dkim-signature" = "dkim-signature" := by decide

theorem sendBounceMessage_isBounce (d : Delivery) (b : BounceInfo) (r : String)
    (c : QueueCmd) (h : sendBounceMessage d b r = some c) :
    c.isBounceCmd = true := by
  unfold sendBounceMessage at h
  split at h
  · exact absurd h (by simp)
  split at h
  · exact absurd h (by simp)
  · cases h; rfl

theorem isBounce_not_terminal (c : QueueCmd) (h : c.isBounceCmd = true) :
    ∀ lk, c.isTerminalWithLock lk = false ∧ c.isReleaseOrDefer = false := by
  cases c with
  | release => simp [QueueCmd.isBounceCmd] at h
  | defer => simp [QueueCmd.isBounceCmd] at h
  | bounce => intro lk; exact ⟨rfl, rfl⟩

theorem countP_handleResponseError (cfg : Config) (env : Env) (d : Delivery)
    (err : ErrInfo) (lk : String) (hlk : lk = d.lock) :
    ((handleResponseError cfg env d err).cmds.countP
        (QueueCmd.isTerminalWithLock lk) = 1) ∧
    ((handleResponseError cfg env d err).cmds.countP
        QueueCmd.isReleaseOrDefer = 1) := by
  subst hlk
  simp only [handleResponseError]
  by_cases hc : ((env.check err.response).action ≠ "reject" ∨ 6 < deferredCountOf d)
  · rw [if_pos hc]
    simp [deferDelivery, QueueCmd.isTerminalWithLock, QueueCmd.isReleaseOrDefer,
      List.countP_cons]
  · rw [if_neg hc]
    have hrest : ∀ c ∈ (if cfg.bouncesEnabled then
        (sendBounceMessage d (env.check err.response)
          (formatSMTPResponse (err.response.getD err.message))).toList
        else []), c.isBounceCmd = true := by
      intro c hcm
      split at hcm
      · rw [Option.mem_toList] at hcm
        exact sendBounceMessage_isBounce _ _ _ _ hcm
      · simp at hcm
    constructor
    · rw [List.countP_cons_of_pos, List.countP_eq_zero.mpr]
      · intro c hcm
        exact (by simp [(isBounce_not_terminal c (hrest c hcm) d.lock).1] :
          ¬ (QueueCmd.isTerminalWithLock d.lock c = true))
      · simp [releaseDelivery, QueueCmd.isTerminalWithLock]
    · rw [List.countP_cons_of_pos, List.countP_eq_zero.mpr]
      · intro c hcm
        exact (by simp [(isBounce_not_terminal c (hrest c hcm) d.lock).2] :
          ¬ (QueueCmd.isReleaseOrDefer c = true))
      · rfl

/-- Claim C1: for every job returned by `GET`, whatever the outcome of the
connection phase and of `Session.send`, the worker issues exactly one
lock-carrying terminal command — one `RELEASE` or `DEFER` carrying the
delivery's `_lock` token (the `BOUNCE` command of `sendBounceMessage` carries
no lock). -/
theorem c1_exactly_one_locked_terminal (cfg : Config) (env : Env) (d : Delivery)
    (conn : ConnResult) :
    ((processDelivery cfg env d conn).cmds.countP
        (QueueCmd.isTerminalWithLock d.lock) = 1) ∧
    ((processDelivery cfg env d conn).cmds.countP
        QueueCmd.isReleaseOrDefer = 1) := by
  cases conn with
  | failed err =>
    simp only [processDelivery]
    exact countP_handleResponseError cfg env _ err d.lock rfl
  | ok name se =>
    cases se with
    | some err =>
      simp only [processDelivery]
      exact countP_handleResponseError cfg env _ err d.lock rfl
    | none =>
      simp [processDelivery, releaseDelivery, List.countP_cons,
        QueueCmd.isTerminalWithLock, QueueCmd.isReleaseOrDefer]

/-- Claim C2, counterexample: a delivery with `deferredCount = 7` whose reply
is classified `reject` is nevertheless deferred — the source defers whenever
`deferredCount > 6`, even on a permanent reject, so the outcome for
`deferredCount > 6` can very well be `DEFER`. -/
theorem c2_counterexample :
    (exEnvReject.check exErr550.response).action = "reject" ∧
    6 < deferredCountOf exDeliveryDC7 ∧
    (handleResponseError exCfgPlain exEnvReject exDeliveryDC7 exErr550).cmds
      = [QueueCmd.defer "m1" "1" "L1" 61440000] := by
  refine ⟨rfl, by decide, by decide⟩

/-- Claim C2, amended: for a delivery with `deferredCount > 6`,
`handleResponseError` always defers — it issues exactly one `DEFER` (with the
back-off TTL) and never a `RELEASE` or `BOUNCE`, regardless of the bounce
classifier's action.  The `> 6` condition forces deferral; it does not
convert chronic deferrals into permanent rejects. -/
theorem c2_chronic_deferral_always_defers (cfg : Config) (env : Env)
    (d : Delivery) (err : ErrInfo) (h : 6 < deferredCountOf d) :
    handleResponseError cfg env d err
      = ⟨[deferDelivery d (deferTtl (deferredCountOf d))], false⟩ := by
  simp only [handleResponseError]
  rw [if_pos (Or.inr h)]

theorem c2_witness :
    handleResponseError exCfgPlain exEnvReject exDeliveryDC7 exErr550
      = ⟨[deferDelivery exDeliveryDC7 (deferTtl (deferredCountOf exDeliveryDC7))],
          false⟩ :=
  c2_chronic_deferral_always_defers exCfgPlain exEnvReject exDeliveryDC7 exErr550
    (by decide)

/-- Claim C3: every `DEFER` issued by `handleResponseError` carries
`ttl = min(5^(deferredCount+1), 1024) × 60 × 1000` ms; that TTL is monotone
non-decreasing in `deferredCount`, and equals the cap `1024 × 60` seconds for
every `deferredCount ≥ 5`. -/
theorem c3_defer_ttl :
    (∀ (cfg : Config) (env : Env) (d : Delivery) (err : ErrInfo)
        (i s lk : String) (t : Nat),
        QueueCmd.defer i s lk t ∈ (handleResponseError cfg env d err).cmds →
        t = deferTtl (deferredCountOf d)) ∧
    (∀ a b : Nat, a ≤ b → deferTtl a ≤ deferTtl b) ∧
    (∀ dc : Nat, 5 ≤ dc → deferTtl dc = 1024 * 60 * 1000) := by
  refine ⟨?_, ?_, ?_⟩
  · intro cfg env d err i s lk t hmem
    simp only [handleResponseError] at hmem
    by_cases hc : ((env.check err.response).action ≠ "reject" ∨
        6 < deferredCountOf d)
    · rw [if_pos hc] at hmem
      simp only [deferDelivery, List.mem_singleton] at hmem
      cases hmem
      rfl
    · rw [if_neg hc] at hmem
      simp only [List.mem_cons] at hmem
      rcases hmem with hmem | hmem
      · exact absurd hmem.symm (by simp [releaseDelivery])
      · exfalso
        have hb : (QueueCmd.defer i s lk t).isBounceCmd = true := by
          revert hmem
          split
          · intro hmem
            rw [Option.mem_toList] at hmem
            exact sendBounceMessage_isBounce _ _ _ _ hmem
          · intro hmem
            simp at hmem
        simp [QueueCmd.isBounceCmd] at hb
  · intro a b hab
    have hpow : (5:Nat) ^ (a + 1) ≤ 5 ^ (b + 1) :=
      Nat.pow_le_pow_right (by norm_num) (by omega)
    exact Nat.mul_le_mul (Nat.mul_le_mul (min_le_min hpow le_rfl) le_rfl) le_rfl
  · intro dc hdc
    have h6 : (1024:Nat) ≤ 5 ^ 6 := by norm_num
    have hle : (1024:Nat) ≤ 5 ^ (dc + 1) :=
      le_trans h6 (Nat.pow_le_pow_right (by norm_num) (by omega))
    unfold deferTtl
    rw [Nat.min_eq_right hle]

theorem c3_witness :
    (61440000 = deferTtl (deferredCountOf exDeliveryDC7)) ∧
    deferTtl 2 ≤ deferTtl 4 ∧ deferTtl 7 = 1024 * 60 * 1000 :=
  ⟨c3_defer_ttl.1 exCfgPlain exEnvReject exDeliveryDC7 exErr550 "m1" "1" "L1"
      61440000 (by decide),
    c3_defer_ttl.2.1 2 4 (by decide), c3_defer_ttl.2.2 7 (by decide)⟩

theorem dkimFold_entries (env : Env) (dk : DkimInfo) :
    ∀ (ks : List String) (hs : Headers),
      ∃ ds, (ks.foldl (dkimStep env dk) hs).entries = ds ++ hs.entries ∧
        ∀ e ∈ ds, e.key = "dkim-signature" := by
  intro ks
  induction ks with
  | nil =>
    intro hs
    exact ⟨[], rfl, by simp⟩
  | cons k ks ih =>
    intro hs
    obtain ⟨ds, hds, hkeys⟩ := ih (dkimStep env dk hs k)
    rw [List.foldl_cons]
    by_cases hdh : env.dkimSign hs dk.hashAlgo dk.bodyHash k = ""
    · refine ⟨ds, ?_, hkeys⟩
      rw [hds]
      simp [dkimStep, hdh]
    · refine ⟨ds ++ [⟨"dkim-signature",
        env.dkimSign hs dk.hashAlgo dk.bodyHash k⟩], ?_, ?_⟩
      · rw [hds]
        simp [dkimStep, hdh, Headers.addFormatted, lower_dkim]
      · intro e he
        rcases List.mem_append.mp he with he | he
        · exact hkeys e he
        · simp only [List.mem_singleton] at he
          rw [he]

theorem signMessage_entries (env : Env) (dkim : Option DkimInfo) (hs : Headers) :
    ∃ ds, (signMessage env dkim hs).entries = ds ++ hs.entries ∧
      (∀ e ∈ ds, e.key = "dkim-signature") ∧ (dkim = none → ds = []) := by
  cases dkim with
  | none => exact ⟨[], rfl, by simp, fun _ => rfl⟩
  | some dk =>
    obtain ⟨ds, h1, h2⟩ := dkimFold_entries env dk dk.keys.reverse hs
    exact ⟨ds, h1, h2, by simp⟩

/-- Claim C4, counterexample: with DKIM signing enabled and a signable key,
the header block sent on the wire does not have the worker's `Received`
header at index 0 — `signMessage` prepends the `DKIM-Signature` header above
it, so index 0 holds `dkim-signature`. -/
theorem c4_counterexample :
    ¬ (((processDelivery exCfgDkim exEnvDkim exDeliveryDkim
          (ConnResult.ok "helo.x" none)).headersFinal.entries.get? 0).map
        HeaderEntry.key = some "received") := by decide

/-- Claim C4, amended: the final header block is always some number of
`dkim-signature` entries (prepended by DKIM signing) on top of the worker's
single `Received` entry, on top of the incoming block (with the optional spam
header appended at the bottom).  The worker's `Received` header is therefore
at index 0 exactly when no DKIM signature was prepended — in particular
whenever DKIM is disabled, the delivery carries no DKIM data, or no
connection was established — and its hostname argument is the local HELO name
of the established connection, or the system hostname when the dial failed. -/
theorem c4_received_position (cfg : Config) (env : Env) (d : Delivery)
    (conn : ConnResult) :
    ∃ ds,
      (processDelivery cfg env d conn).headersFinal.entries
        = ds ++ ⟨"received", (processDelivery cfg env d conn).received⟩
            :: (applySpam d).entries ∧
      (∀ e ∈ ds, e.key = "dkim-signature") ∧
      ((processDelivery cfg env d conn).received
        = env.genReceived { d with headers := applySpam d } (connHelo env conn)) ∧
      (cfg.dkimEnabled = false → ds = []) ∧
      (d.dkim = none → ds = []) ∧
      (connIsFailed conn = true → ds = []) := by
  cases conn with
  | failed err =>
    refine ⟨[], ?_, by simp, rfl, fun _ => rfl, fun _ => rfl, fun _ => rfl⟩
    simp [processDelivery, Headers.addFormatted, lower_received]
  | ok name se =>
    by_cases hdk : cfg.dkimEnabled
    · obtain ⟨ds, h1, h2, h3⟩ := signMessage_entries env d.dkim
        ((applySpam d).addFormatted "Received"
          (env.genReceived { d with headers := applySpam d }
            (connHelo env (ConnResult.ok name se))) (HeaderIndex.pos 0))
      refine ⟨ds, ?_, h2, ?_, ?_, h3, ?_⟩
      · cases se <;>
          simp only [processDelivery, hdk, if_true] <;>
          rw [h1] <;>
          simp [Headers.addFormatted, lower_received]
      · cases se <;> rfl
      · intro hfalse
        rw [hdk] at hfalse
        exact absurd hfalse (by simp)
      · intro hfail
        simp [connIsFailed] at hfail
    · refine ⟨[], ?_, by simp, ?_, fun _ => rfl, fun _ => rfl, fun _ => rfl⟩
      · cases se <;>
          simp only [processDelivery] <;>
          rw [if_neg hdk] <;>
          simp [Headers.addFormatted, lower_received]
      · cases se <;> rfl

theorem c4_witness :
    (processDelivery exCfgPlain exEnvReject exDeliveryPlain
        (ConnResult.failed exErr550)).headersFinal.entries
      = [⟨"received", "Received: by host.local"⟩] := by
  obtain ⟨ds, h1, -, -, -, -, h6⟩ :=
    c4_received_position exCfgPlain exEnvReject exDeliveryPlain
      (.failed exErr550)
  rw [h6 rfl] at h1
  rw [h1]
  decide

/-- Claim C5: on every successful dial, the SIZE value handed to
`Session.send` is exactly the length of the prepended `Received` header plus
the length of the built header block (which itself already contains that
`Received` header) plus the delivery's `bodySize`. -/
theorem c5_size_formula (cfg : Config) (env : Env) (d : Delivery)
    (name : String) (se : Option ErrInfo) :
    (processDelivery cfg env d (.ok name se)).sendCall
      = some ⟨srsEnvelopeFrom cfg env d.mailFrom, d.rcptTo,
          (processDelivery cfg env d (.ok name se)).received.length
          + (processDelivery cfg env d (.ok name se)).headersFinal.build.length
          + d.bodySize⟩ := by
  cases se <;> rfl

theorem filter_received_dkim_nil (ds : List HeaderEntry)
    (h : ∀ e ∈ ds, e.key = "dkim-signature") :
    ds.filter (fun e => e.key == lowerStr "Received") = [] := by
  rw [List.filter_eq_nil_iff]
  intro e he
  rw [h e he, lower_received]
  simp

theorem receivedCount_signMessage (env : Env) (dkim : Option DkimInfo)
    (hs : Headers) :
    ((signMessage env dkim hs).get "Received").length
      = (hs.get "Received").length := by
  obtain ⟨ds, h1, h2, -⟩ := signMessage_entries env dkim hs
  unfold Headers.get
  rw [h1, List.filter_append, filter_received_dkim_nil ds h2]
  rfl

theorem get_add_bottom_ne (h : Headers) (k v q : String)
    (hne : (lowerStr k == lowerStr q) = false) :
    (h.add k v .bottom).get q = h.get q := by
  unfold Headers.add Headers.addFormatted Headers.get
  rw [List.filter_append, List.filter_cons_of_neg, List.filter_nil,
    List.append_nil]
  simp [hne]

theorem receivedCount_applySpam (d : Delivery) :
    ((applySpam d).get "Received").length
      = (d.headers.get "Received").length := by
  unfold applySpam
  cases d.spam with
  | none => rfl
  | some sp =>
    obtain ⟨sdef, tests⟩ := sp
    cases sdef with
    | none => rfl
    | some sd =>
      exact congrArg List.length
        (get_add_bottom_ne d.headers "X-Zone-Spam-Status" _ "Received"
          (by decide))

theorem receivedCount_prepend (h : Headers) (line : String) :
    ((h.addFormatted "Received" line (.pos 0)).get "Received").length
      = (h.get "Received").length + 1 := by
  unfold Headers.addFormatted Headers.get
  simp [lower_received]

theorem handleResponseError_hopcount (cfg : Config) (env : Env) (d : Delivery)
    (err : ErrInfo)
    (ha : (env.check err.response).action = "reject")
    (hdc : deferredCountOf d ≤ 6)
    (hr : 25 < (d.headers.get "Received").length) :
    handleResponseError cfg env d err
      = ⟨[releaseDelivery d], cfg.bouncesUrl.isSome⟩ := by
  simp only [handleResponseError]
  rw [if_neg (by simp [ha]; omega)]
  have hsb : sendBounceMessage d (env.check err.response)
      (formatSMTPResponse (err.response.getD err.message)) = none := by
    unfold sendBounceMessage
    by_cases hf : d.mailFrom = ""
    · rw [if_pos hf]
    · rw [if_neg hf, if_pos hr]
  rw [hsb]
  split <;> rfl

/-- Claim C6: on a permanent reject (classifier action `reject`,
`deferredCount ≤ 6`) with internal bounces enabled, when the header block
carries more than 25 `Received` headers at the moment of the check (the
worker's own `Received` has been prepended, so an arrival count of at least
25 — e.g. the 26 of the boundary scenario — trips the guard), no `BOUNCE`
command is issued: the commands are exactly one `RELEASE`, and the webhook is
still scheduled exactly when `bounces.url` is configured. -/
theorem c6_hopcount_bounce_suppressed (cfg : Config) (env : Env) (d : Delivery)
    (conn : ConnResult) (err : ErrInfo)
    (hc : connErr conn = some err)
    (ha : (env.check err.response).action = "reject")
    (hdc : deferredCountOf d ≤ 6)
    (_hb : cfg.bouncesEnabled = true)
    (hr : 25 ≤ (d.headers.get "Received").length) :
    (processDelivery cfg env d conn).cmds = [releaseDelivery d] ∧
    (processDelivery cfg env d conn).webhookScheduled
      = cfg.bouncesUrl.isSome := by
  cases conn with
  | failed e =>
    have he : e = err := by simpa [connErr] using hc
    subst he
    simp only [processDelivery]
    have h25 : 25 < ((((applySpam d).addFormatted "Received"
        (env.genReceived { d with headers := applySpam d }
          (connHelo env (ConnResult.failed e))) (.pos 0))).get
          "Received").length := by
      rw [receivedCount_prepend, receivedCount_applySpam]
      omega
    rw [handleResponseError_hopcount cfg env
      { d with headers := ((applySpam d).addFormatted "Received"
          (env.genReceived { d with headers := applySpam d }
            (connHelo env (ConnResult.failed e))) (.pos 0)) } e ha hdc h25]
    exact ⟨rfl, rfl⟩
  | ok name se =>
    cases se with
    | none => simp [connErr] at hc
    | some e =>
      have he : e = err := by simpa [connErr] using hc
      subst he
      simp only [processDelivery]
      have h25 : 25 < (((if cfg.dkimEnabled then
          signMessage env d.dkim
            ((applySpam d).addFormatted "Received"
              (env.genReceived { d with headers := applySpam d }
                (connHelo env (ConnResult.ok name (some e)))) (.pos 0))
          else
          ((applySpam d).addFormatted "Received"
            (env.genReceived { d with headers := applySpam d }
              (connHelo env (ConnResult.ok name (some e)))) (.pos 0)))).get
            "Received").length := by
        cases hdk : cfg.dkimEnabled with
        | false =>
          rw [if_neg (by simp), receivedCount_prepend, receivedCount_applySpam]
          omega
        | true =>
          rw [if_pos rfl, receivedCount_signMessage, receivedCount_prepend,
            receivedCount_applySpam]
          omega
      rw [handleResponseError_hopcount cfg env
        { d with headers := (if cfg.dkimEnabled then
            signMessage env d.dkim
              ((applySpam d).addFormatted "Received"
                (env.genReceived { d with headers := applySpam d }
                  (connHelo env (ConnResult.ok name (some e)))) (.pos 0))
            else
            ((applySpam d).addFormatted "Received"
              (env.genReceived { d with headers := applySpam d }
                (connHelo env (ConnResult.ok name (some e)))) (.pos 0))) } e
        ha hdc h25]
      exact ⟨rfl, rfl⟩

theorem c6_witness :
    (processDelivery exCfgBounces exEnvReject exDelivery26
        (ConnResult.failed exErr550)).cmds = [releaseDelivery exDelivery26] ∧
    (processDelivery exCfgBounces exEnvReject exDelivery26
        (ConnResult.failed exErr550)).webhookScheduled
      = exCfgBounces.bouncesUrl.isSome :=
  c6_hopcount_bounce_suppressed exCfgBounces exEnvReject exDelivery26
    (.failed exErr550) exErr550 rfl rfl (by decide) rfl (by decide)

theorem dialRun_retry_count (env : DialEnv) (hnp : noPlainEtls env) :
    ∀ (fuel : Nat) (flag : Bool) (st : DialState),
      ((dialRun env flag fuel st).trace.countP (fun a => a.isRetry))
        ≤ st.retryBit + (if flag then 0 else 1) := by
  intro fuel
  induction fuel with
  | zero =>
    intro flag st
    simp [dialRun]
  | succ n ih =>
    intro flag st
    cases st with
    | mx mxTry =>
      simp only [dialRun]
      by_cases hmx : mxTry < env.ipLists.length
      · rw [if_pos hmx]
        exact le_trans (ih flag _) (Nat.add_le_add_right (Nat.zero_le _) _)
      · rw [if_neg hmx]
        simp
    | ip mxTry nIps nextIdx retry =>
      simp only [dialRun]
      by_cases hcond : (¬retry = true ∧ nIps ≤ nextIdx)
      · rw [if_pos hcond]
        exact le_trans (ih flag _) (Nat.add_le_add_right (Nat.zero_le _) _)
      · rw [if_neg hcond]
        by_cases h1 : env.attempt mxTry
            (if retry then nextIdx - 1 else nextIdx) (!flag) = .connected
        · rw [if_pos h1]
          cases retry <;> simp [DialState.retryBit, List.countP_cons]
        · rw [if_neg h1]
          by_cases h2 : env.attempt mxTry
              (if retry then nextIdx - 1 else nextIdx) (!flag) = .etls
          · rw [if_pos h2]
            have hflag : flag = false := by
              cases hf : flag
              · rfl
              · rw [hf] at h2
                exact absurd (by simpa using h2)
                  (hnp mxTry (if retry then nextIdx - 1 else nextIdx))
            subst hflag
            have hrec := ih true
              (.ip mxTry nIps (if retry then nextIdx else nextIdx + 1) true)
            simp only [DialState.retryBit] at hrec
            simp only [dialCons, List.countP_cons]
            cases retry <;> simp [DialState.retryBit] at hrec ⊢ <;> omega
          · rw [if_neg h2]
            have hrec := ih flag
              (.ip mxTry nIps (if retry then nextIdx else nextIdx + 1) false)
            simp only [DialState.retryBit] at hrec
            simp only [dialCons, List.countP_cons]
            cases retry <;> simp [DialState.retryBit] at hrec ⊢ <;> omega

theorem dialRun_flag_true (env : DialEnv) :
    ∀ (fuel : Nat) (st : DialState), (dialRun env true fuel st).flag = true := by
  intro fuel
  induction fuel with
  | zero => intro st; rfl
  | succ n ih =>
    intro st
    cases st with
    | mx mxTry =>
      simp only [dialRun]
      by_cases hmx : mxTry < env.ipLists.length
      · rw [if_pos hmx]
        exact ih _
      · rw [if_neg hmx]
    | ip mxTry nIps nextIdx retry =>
      simp only [dialRun]
      by_cases hcond : (¬retry = true ∧ nIps ≤ nextIdx)
      · rw [if_pos hcond]
        exact ih _
      · rw [if_neg hcond]
        by_cases h1 : env.attempt mxTry
            (if retry then nextIdx - 1 else nextIdx) (!true) = .connected
        · rw [if_pos h1]
        · rw [if_neg h1]
          by_cases h2 : env.attempt mxTry
              (if retry then nextIdx - 1 else nextIdx) (!true) = .etls
          · rw [if_pos h2]
            simpa [dialCons] using ih _
          · rw [if_neg h2]
            simpa [dialCons] using ih _

theorem dialRun_etls_flag (env : DialEnv) :
    ∀ (fuel : Nat) (flag : Bool) (st : DialState),
      (∃ a ∈ (dialRun env flag fuel st).trace, a.result = AttemptResult.etls) →
      (dialRun env flag fuel st).flag = true := by
  intro fuel
  induction fuel with
  | zero =>
    intro flag st h
    obtain ⟨a, ha, -⟩ := h
    exact (List.not_mem_nil a ha).elim
  | succ n ih =>
    intro flag st h
    cases st with
    | mx mxTry =>
      simp only [dialRun] at h ⊢
      by_cases hmx : mxTry < env.ipLists.length
      · rw [if_pos hmx] at h ⊢
        exact ih flag _ h
      · rw [if_neg hmx] at h
        obtain ⟨a, ha, -⟩ := h
        exact (List.not_mem_nil a ha).elim
    | ip mxTry nIps nextIdx retry =>
      simp only [dialRun] at h ⊢
      by_cases hcond : (¬retry = true ∧ nIps ≤ nextIdx)
      · rw [if_pos hcond] at h ⊢
        exact ih flag _ h
      · rw [if_neg hcond] at h ⊢
        by_cases h1 : env.attempt mxTry
            (if retry then nextIdx - 1 else nextIdx) (!flag) = .connected
        · rw [if_pos h1] at h
          obtain ⟨a, ha, har⟩ := h
          rw [List.mem_singleton.mp ha] at har
          rw [h1] at har
          simp at har
        · rw [if_neg h1] at h ⊢
          by_cases h2 : env.attempt mxTry
              (if retry then nextIdx - 1 else nextIdx) (!flag) = .etls
          · rw [if_pos h2]
            simpa [dialCons] using dialRun_flag_true env n _
          · rw [if_neg h2] at h ⊢
            obtain ⟨a, ha, har⟩ := h
            simp only [dialCons] at ha
            rcases List.mem_cons.mp ha with hh | hh
            · rw [hh] at har
              exact absurd har h2
            · simpa [dialCons] using ih flag _ ⟨a, hh, har⟩

theorem dialRun_ip_retry_head (env : DialEnv) (fuel : Nat) (flag : Bool)
    (mxTry nIps nextIdx : Nat)
    (hout : (dialRun env flag fuel (.ip mxTry nIps nextIdx true)).outcome
      ≠ DialOutcome.outOfFuel) :
    (dialRun env flag fuel (.ip mxTry nIps nextIdx true)).trace.get? 0
      = some ⟨mxTry, nextIdx - 1, !flag, true,
          env.attempt mxTry (nextIdx - 1) (!flag)⟩ := by
  cases fuel with
  | zero => exact absurd rfl hout
  | succ n =>
    by_cases h1 : env.attempt mxTry (nextIdx - 1) (!flag) = .connected
    · simp [dialRun, h1]
    · by_cases h2 : env.attempt mxTry (nextIdx - 1) (!flag) = .etls
      · simp [dialRun, h1, h2, dialCons]
      · simp [dialRun, h1, h2, dialCons]

theorem dialRun_etls_retried (env : DialEnv) :
    ∀ (fuel : Nat) (flag : Bool) (st : DialState),
      (dialRun env flag fuel st).outcome ≠ DialOutcome.outOfFuel →
      ∀ (k : Nat) (a : DialAttempt),
        (dialRun env flag fuel st).trace.get? k = some a →
        a.result = AttemptResult.etls →
        (dialRun env flag fuel st).trace.get? (k + 1)
          = some ⟨a.mx, a.ip, false, true, env.attempt a.mx a.ip false⟩ := by
  intro fuel
  induction fuel with
  | zero =>
    intro flag st hout
    exact absurd rfl hout
  | succ n ih =>
    intro flag st hout k a hk har
    cases st with
    | mx mxTry =>
      simp only [dialRun] at hout hk ⊢
      by_cases hmx : mxTry < env.ipLists.length
      · rw [if_pos hmx] at hout hk ⊢
        exact ih flag _ hout k a hk har
      · rw [if_neg hmx] at hk
        simp at hk
    | ip mxTry nIps nextIdx retry =>
      simp only [dialRun] at hout hk ⊢
      by_cases hcond : (¬retry = true ∧ nIps ≤ nextIdx)
      · rw [if_pos hcond] at hout hk ⊢
        exact ih flag _ hout k a hk har
      · rw [if_neg hcond] at hout hk ⊢
        by_cases h1 : env.attempt mxTry
            (if retry then nextIdx - 1 else nextIdx) (!flag) = .connected
        · rw [if_pos h1] at hout hk ⊢
          cases k with
          | zero =>
            have ha : a = ⟨mxTry, (if retry then nextIdx - 1 else nextIdx),
                !flag, retry, env.attempt mxTry
                  (if retry then nextIdx - 1 else nextIdx) (!flag)⟩ :=
              (Option.some.inj hk).symm
            subst ha
            exact absurd (h1.symm.trans har) (by decide)
          | succ k => simp at hk
        · rw [if_neg h1] at hout hk ⊢
          by_cases h2 : env.attempt mxTry
              (if retry then nextIdx - 1 else nextIdx) (!flag) = .etls
          · rw [if_pos h2] at hout hk ⊢
            simp only [dialCons] at hout hk ⊢
            cases k with
            | zero =>
              have ha : a = ⟨mxTry, (if retry then nextIdx - 1 else nextIdx),
                  !flag, retry, env.attempt mxTry
                    (if retry then nextIdx - 1 else nextIdx) (!flag)⟩ :=
                (Option.some.inj hk).symm
              subst ha
              rw [List.get?_cons_succ]
              have hh := dialRun_ip_retry_head env n true mxTry nIps
                (if retry then nextIdx else nextIdx + 1) hout
              rw [hh]
              cases retry <;> simp
            | succ k =>
              rw [List.get?_cons_succ] at hk
              rw [List.get?_cons_succ]
              exact ih true _ hout k a hk har
          · rw [if_neg h2] at hout hk ⊢
            simp only [dialCons] at hout hk ⊢
            cases k with
            | zero =>
              have ha : a = ⟨mxTry, (if retry then nextIdx - 1 else nextIdx),
                  !flag, retry, env.attempt mxTry
                    (if retry then nextIdx - 1 else nextIdx) (!flag)⟩ :=
                (Option.some.inj hk).symm
              subst ha
              exact absurd har h2
            | succ k =>
              rw [List.get?_cons_succ] at hk
              rw [List.get?_cons_succ]
              exact ih flag _ hout k a hk har

/-- Claim C7: in the dial loop, (i) on every completed dial, an attempt that
fails with the `ETLS` error code is immediately followed by a retry of the
very same exchange and IP in plaintext (STARTTLS disabled) — no advance to
the next IP or MX in between; (ii) when plaintext attempts cannot produce
`ETLS` (as in `smtp-connection`), the whole dial contains at most one such
retry, hence at most one per IP; (iii) after any `ETLS` the zone's
`disableStarttls` flag is true.  The delivery itself is not touched by
`getConnection`, so `deferredCount` is unchanged. -/
theorem c7_starttls_downgrade (env : DialEnv) (flag0 : Bool) (fuel : Nat) :
    ((dial env flag0 fuel).outcome ≠ DialOutcome.outOfFuel →
      ∀ (k : Nat) (a : DialAttempt),
        (dial env flag0 fuel).trace.get? k = some a →
        a.result = AttemptResult.etls →
        (dial env flag0 fuel).trace.get? (k + 1)
          = some ⟨a.mx, a.ip, false, true, env.attempt a.mx a.ip false⟩) ∧
    (noPlainEtls env →
      (dial env flag0 fuel).trace.countP (fun a => a.isRetry) ≤ 1) ∧
    ((∃ a ∈ (dial env flag0 fuel).trace, a.result = AttemptResult.etls) →
      (dial env flag0 fuel).flag = true) := by
  refine ⟨dialRun_etls_retried env fuel flag0 _, ?_,
    dialRun_etls_flag env fuel flag0 _⟩
  intro hnp
  have h := dialRun_retry_count env hnp fuel flag0 (.mx 0)
  have hbit : DialState.retryBit (.mx 0) = 0 := rfl
  rw [hbit] at h
  exact le_trans h (by cases flag0 <;> simp)

theorem c7_witness :
    (dial exDialEnv false 10).trace.get? 1
      = some ⟨0, 0, false, true, exDialEnv.attempt 0 0 false⟩ ∧
    (dial exDialEnv false 10).trace.countP (fun a => a.isRetry) ≤ 1 ∧
    (dial exDialEnv false 10).flag = true := by
  refine ⟨?_, ?_, ?_⟩
  · exact (c7_starttls_downgrade exDialEnv false 10).1 (by decide) 0
      ⟨0, 0, true, false, AttemptResult.etls⟩ (by decide) rfl
  · exact (c7_starttls_downgrade exDialEnv false 10).2.1
      (fun m i => by simp [exDialEnv])
  · exact (c7_starttls_downgrade exDialEnv false 10).2.2
      ⟨⟨0, 0, true, false, AttemptResult.etls⟩, by decide, rfl⟩

theorem lastIdxAux_none (c : Char) :
    ∀ (l : List Char), lastIdxAux c l = none → c ∉ l := by
  intro l
  induction l with
  | nil =>
    intro _
    simp
  | cons a rest ih =>
    intro h
    cases hr : lastIdxAux c rest with
    | some i =>
      simp only [lastIdxAux, hr] at h
      exact absurd h (by simp)
    | none =>
      simp only [lastIdxAux, hr] at h
      by_cases hac : a = c
      · rw [if_pos hac] at h
        simp at h
      · intro hmem
        rcases List.mem_cons.mp hmem with h1 | h1
        · exact hac h1.symm
        · exact ih hr h1

theorem lastIdxAux_split (c : Char) :
    ∀ (l : List Char) (n : Nat), lastIdxAux c l = some n →
      l = l.take n ++ c :: l.drop (n + 1) ∧ c ∉ l.drop (n + 1) := by
  intro l
  induction l with
  | nil =>
    intro n h
    simp [lastIdxAux] at h
  | cons a rest ih =>
    intro n h
    cases hr : lastIdxAux c rest with
    | some i =>
      simp only [lastIdxAux, hr] at h
      have hn : n = i + 1 := (Option.some.inj h).symm
      subst hn
      obtain ⟨hsplit, hnot⟩ := ih i hr
      constructor
      · rw [List.take_succ_cons, List.drop_succ_cons, List.cons_append]
        exact congrArg (List.cons a) hsplit
      · rw [List.drop_succ_cons]
        exact hnot
    | none =>
      simp only [lastIdxAux, hr] at h
      by_cases hac : a = c
      · rw [if_pos hac] at h
        have hn : n = 0 := (Option.some.inj h).symm
        subst hn
        subst hac
        constructor
        · simp
        · simpa using lastIdxAux_none a rest hr
      · rw [if_neg hac] at h
        simp at h

theorem srsEnvelopeFrom_spec (cfg : Config) (env : Env) (s : String)
    (hsrs : cfg.srsEnabled = true) (hne : s ≠ "") :
    (∃ loc dom, s.data = loc ++ '@' :: dom ∧ '@' ∉ dom ∧
        srsEnvelopeFrom cfg env s
          = (if lowerStr ⟨dom⟩ ∈ cfg.srsExcludeDomains then s
             else env.srsRewrite ⟨loc⟩ (lowerStr ⟨dom⟩) ++ "@"
               ++ cfg.srsRewriteDomain)) ∨
    ('@' ∉ s.data ∧
        srsEnvelopeFrom cfg env s
          = (if lowerStr s ∈ cfg.srsExcludeDomains then s
             else env.srsRewrite "" (lowerStr s) ++ "@"
               ++ cfg.srsRewriteDomain)) := by
  cases hidx : lastIdxAux '@' s.data with
  | some i =>
    obtain ⟨hsplit, hnot⟩ := lastIdxAux_split '@' s.data i hidx
    refine Or.inl ⟨s.data.take i, s.data.drop (i + 1), hsplit, hnot, ?_⟩
    simp only [srsEnvelopeFrom, hidx]
    rw [if_pos ⟨hsrs, hne⟩]
    simp
  | none =>
    refine Or.inr ⟨lastIdxAux_none '@' s.data hidx, ?_⟩
    simp only [srsEnvelopeFrom, hidx]
    rw [if_pos ⟨hsrs, hne⟩]
    simp

/-- Claim C8: with SRS enabled and a non-empty envelope sender, the
envelope-from handed to `Session.send` is unchanged when the sender's domain
(the text after the last `@`, lowercased) is in `srs.excludeDomains`, and is
otherwise `srsRewriter.rewrite(localpart, domain) ++ "@" ++ srs.rewriteDomain`
(with an empty local part when there is no `@`); the header block of the
delivery is independent of all SRS settings, so the `From:` header is
untouched. -/
theorem c8_srs_envelope (cfg : Config) (env : Env) (d : Delivery)
    (name : String) (se : Option ErrInfo)
    (hsrs : cfg.srsEnabled = true) (hne : d.mailFrom ≠ "") :
    (∃ call, (processDelivery cfg env d (.ok name se)).sendCall = some call ∧
      ((∃ loc dom, d.mailFrom.data = loc ++ '@' :: dom ∧ '@' ∉ dom ∧
          call.mailFrom = (if lowerStr ⟨dom⟩ ∈ cfg.srsExcludeDomains
            then d.mailFrom
            else env.srsRewrite ⟨loc⟩ (lowerStr ⟨dom⟩) ++ "@"
              ++ cfg.srsRewriteDomain)) ∨
        ('@' ∉ d.mailFrom.data ∧
          call.mailFrom = (if lowerStr d.mailFrom ∈ cfg.srsExcludeDomains
            then d.mailFrom
            else env.srsRewrite "" (lowerStr d.mailFrom) ++ "@"
              ++ cfg.srsRewriteDomain)))) ∧
    (∀ (b : Bool) (rd : String) (ex : List String),
      (processDelivery { cfg with srsEnabled := b, srsRewriteDomain := rd, srsExcludeDomains := ex } env d (.ok name se)).headersFinal
        = (processDelivery cfg env d (.ok name se)).headersFinal) := by
  constructor
  · have hcall : ∃ call,
        (processDelivery cfg env d (.ok name se)).sendCall = some call ∧
        call.mailFrom = srsEnvelopeFrom cfg env d.mailFrom := by
      cases se <;> exact ⟨_, rfl, rfl⟩
    obtain ⟨call, hc1, hc2⟩ := hcall
    refine ⟨call, hc1, ?_⟩
    rcases srsEnvelopeFrom_spec cfg env d.mailFrom hsrs hne with
      ⟨loc, dom, hspl, hnm, heq⟩ | ⟨hnm, heq⟩
    · exact Or.inl ⟨loc, dom, hspl, hnm, hc2.trans heq⟩
    · exact Or.inr ⟨hnm, hc2.trans heq⟩
  · intro b rd ex
    cases se <;> rfl

theorem c8_witness :
    (processDelivery { exCfgSrs with srsEnabled := false, srsRewriteDomain := "rw.test", srsExcludeDomains := [] } exEnvDkim
        exDeliverySrs (ConnResult.ok "helo.x" none)).headersFinal
      = (processDelivery exCfgSrs exEnvDkim exDeliverySrs
          (ConnResult.ok "helo.x" none)).headersFinal :=
  (c8_srs_envelope exCfgSrs exEnvDkim exDeliverySrs "helo.x" none rfl
    (by decide)).2 false "rw.test" []

/-- Claim C9, counterexample: the guard `retries++ <= 5` lets the post-
incremented counter pass six times, so with seven consecutive webhook POST
failures the source schedules six retries — not "at most five". -/
theorem c9_counterexample : ¬ ((webhookRetrySchedule 7).length ≤ 5) := by
  decide

theorem notifyBounceRetries_spec :
    ∀ (k r : Nat), r ≤ 6 →
      (notifyBounceRetries r k).length = min k (6 - r) ∧
      (∀ (n x : Nat), (notifyBounceRetries r k).get? n = some x →
        x = (r + n + 1) ^ 2 * 1000) := by
  intro k
  induction k with
  | zero =>
    intro r hr
    constructor
    · simp [notifyBounceRetries]
    · intro n x hx
      simp [notifyBounceRetries] at hx
  | succ k ih =>
    intro r hr
    by_cases h5 : r ≤ 5
    · have hrec := ih (r + 1) (by omega)
      constructor
      · simp only [notifyBounceRetries, if_pos h5, List.length_cons, hrec.1]
        omega
      · intro n x hx
        simp only [notifyBounceRetries, if_pos h5] at hx
        cases n with
        | zero =>
          rw [List.get?_cons_zero] at hx
          have := Option.some.inj hx
          rw [← this]
        | succ n =>
          rw [List.get?_cons_succ] at hx
          have := hrec.2 n x hx
          rw [this]
          ring_nf
    · have hr6 : r = 6 := by omega
      subst hr6
      constructor
      · simp [notifyBounceRetries]
      · intro n x hx
        simp [notifyBounceRetries] at hx

/-- Claim C9, amended: on a permanent reject the webhook POST is scheduled
exactly when `bounces.url` is configured; a failing POST is retried at most
SIX times (the `retries++ <= 5` post-increment guard admits six retries, one
more than the spec's five), the `n`-th retry scheduled `n² × 1000` ms after
the `n`-th failure on a non-blocking timer, after which the failure is
abandoned; webhook failures never produce queue commands or worker errors. -/
theorem c9_webhook_retries :
    (∀ (cfg : Config) (env : Env) (d : Delivery) (err : ErrInfo),
        (env.check err.response).action = "reject" →
        deferredCountOf d ≤ 6 →
        (handleResponseError cfg env d err).webhookScheduled
          = cfg.bouncesUrl.isSome) ∧
    (∀ f : Nat, (webhookRetrySchedule f).length = min f 6) ∧
    (∀ (f n x : Nat), (webhookRetrySchedule f).get? n = some x →
      x = (n + 1) ^ 2 * 1000) := by
  refine ⟨?_, ?_, ?_⟩
  · intro cfg env d err ha hdc
    simp only [handleResponseError]
    rw [if_neg (by simp [ha]; omega)]
  · intro f
    have := (notifyBounceRetries_spec f 0 (by omega)).1
    simpa [webhookRetrySchedule] using this
  · intro f n x hx
    have := (notifyBounceRetries_spec f 0 (by omega)).2 n x hx
    simpa using this

theorem c9_witness :
    ((webhookRetrySchedule 7).length = min 7 6) ∧ (36000 = (5 + 1) ^ 2 * 1000) ∧
    ((handleResponseError exCfgBounces exEnvReject exDeliveryPlain
        exErr550).webhookScheduled = exCfgBounces.bouncesUrl.isSome) :=
  ⟨c9_webhook_retries.2.1 7, c9_webhook_retries.2.2 7 5 36000 (by decide),
    c9_webhook_retries.1 exCfgBounces exEnvReject exDeliveryPlain exErr550 rfl
      (by decide)⟩

/-- Claim C10: for a delivery whose envelope sender is empty (a null return
path), `sendBounceMessage` returns without issuing a `BOUNCE` command,
regardless of the bounce classification, the hop count, or any
configuration. -/
theorem c10_null_return_path (d : Delivery) (b : BounceInfo) (resp : String)
    (h : d.mailFrom = "") :
    sendBounceMessage d b resp = none := by
  unfold sendBounceMessage
  rw [if_pos h]

theorem c10_witness :
    sendBounceMessage exDeliveryNullFrom ⟨"reject", "other", "x"⟩ "550 bad"
      = none :=
  c10_null_return_path exDeliveryNullFrom ⟨"reject", "other", "x"⟩ "550 bad" rfl
